import Mathlib

/-!
# Verification of the profit calculator

Shallow embedding of `src/profit_calculator.cpp` (namespace `setm`).

Modelling decisions:
* C++ `int` values (order quantities, demand levels) become `ℤ`.
* C++ `double` money values become `ℚ` with exact arithmetic; the pricing
  constants and probability literals are embedded as the rationals they denote.
* Out-of-bounds vector accesses are undefined behaviour in the C++ source;
  functions that can perform one are embedded as `Option`-valued functions
  returning `none` exactly when the source would access out of bounds.
* `std::numeric_limits<double>::lowest()` is the largest-magnitude negative
  finite double, `-(2^1024 - 2^971)`; it is embedded as that exact rational.
-/

set_option autoImplicit false

/-- `setm::calculate_profit` (profit_calculator.cpp lines 23-33):
`revenue = sale_price_first_half * min(orders, demand)
         + sale_price_second_half * max(0, orders - demand)`,
`total_cost = cost_per_unit * orders`, result `revenue - total_cost`. -/
def calculate_profit (orders demand : ℤ) : ℚ :=
  let sale_price_first_half : ℚ := 49000
  let sale_price_second_half : ℚ := 15000
  let cost_per_unit : ℚ := 25000
  let revenue : ℚ :=
    sale_price_first_half * ((min orders demand : ℤ) : ℚ) +
      sale_price_second_half * ((max 0 (orders - demand) : ℤ) : ℚ)
  let total_cost : ℚ := cost_per_unit * ((orders : ℤ) : ℚ)
  revenue - total_cost

/-- `setm::create_profit_matrix` (lines 44-57): one row per order, and row `i`
is `demands` transformed by `calculate_profit(orders[i], ·)`. -/
def create_profit_matrix (orders demands : List ℤ) : List (List ℚ) :=
  orders.map (fun o => demands.map (fun d => calculate_profit o d))

/-- The inner `std::ranges::transform` of `setm::calculate_expected_values`
(lines 74-80): multiplies the row elements pointwise by `probabilities[j]`
for the running counter `j`; reading `probabilities[j]` out of bounds is
undefined behaviour, modelled as `none`. -/
def weight_row : List ℚ → List ℚ → ℕ → Option (List ℚ)
  | [], _, _ => some []
  | x :: xs, probs, j =>
    match probs[j]? with
    | none => none
    | some p => (weight_row xs probs (j + 1)).map (fun r => x * p :: r)

/-- The row loop of `setm::calculate_expected_values`: every output row is
allocated with `profit_matrix[0].size()` (`w`) zero entries; `transform`
writes `row.length` weighted values into it, which overruns the output row
(undefined behaviour, `none`) when `row` is longer than `w`, and leaves the
trailing zero entries in place when `row` is shorter. -/
def cev_rows (w : ℕ) (probs : List ℚ) : List (List ℚ) → Option (List (List ℚ))
  | [] => some []
  | row :: rest =>
    if w < row.length then none
    else
      match weight_row row probs 0, cev_rows w probs rest with
      | some wr, some rs => some ((wr ++ List.replicate (w - row.length) 0) :: rs)
      | _, _ => none

/-- `setm::calculate_expected_values` (lines 68-83): unconditionally reads
`profit_matrix[0].size()` — out of bounds (`none`) on an empty matrix —
then weights each row by the probabilities. -/
def calculate_expected_values (profit_matrix : List (List ℚ)) (probabilities : List ℚ) :
    Option (List (List ℚ)) :=
  match profit_matrix with
  | [] => none
  | r0 :: _ => cev_rows r0.length probabilities profit_matrix

/-- `setm::calculate_expected_profits` (lines 93-105): `std::transform` with
`std::accumulate(row.begin(), row.end(), 0.0)`, a left-to-right fold from 0. -/
def calculate_expected_profits (expected_values : List (List ℚ)) : List ℚ :=
  expected_values.map (fun row => row.foldl (· + ·) 0)

/-- `std::numeric_limits<double>::lowest()`, the exact value of the most
negative finite IEEE-754 binary64 number, `-(2^1024 - 2^971)`, written as an
explicit numeral so that proofs can evaluate it. -/
def lowestDouble : ℚ :=
  -179769313486231570814527423731704356798070567525844996598917476803157260780028538760589558632766878171540458953514382464234321326889464182768467546703537516986049910576551282076245490090389328944075868508455133942304583236903222948165808559332123348274797826204144723168738177180919299881250404026184124858368

/-- The optimizer loop of `main` (lines 159-170): iterates `i` over
`expected_profits`, reads `orders[i]` unconditionally (out of bounds,
`none`, when `orders` is shorter), and replaces the incumbent only on a
strictly greater profit (`expected_profits[i] > max_profit`). -/
def optimize_go : List ℤ → List ℚ → ℤ → ℚ → Option (ℤ × ℚ)
  | _, [], best_order, best_profit => some (best_order, best_profit)
  | [], _ :: _, _, _ => none
  | o :: os, p :: ps, best_order, best_profit =>
    if best_profit < p then optimize_go os ps o p
    else optimize_go os ps best_order best_profit

/-- The optimizer of `main` with its initial state:
`optimal_order = 0`, `max_profit = std::numeric_limits<double>::lowest()`. -/
def main_optimize (orders : List ℤ) (expected_profits : List ℚ) : Option (ℤ × ℚ) :=
  optimize_go orders expected_profits 0 lowestDouble

/-- `demands` vector of `main` (line 147). -/
def default_demands : List ℤ := [100, 150, 200, 250, 300]

/-- `probabilities` vector of `main` (line 148). -/
def default_probabilities : List ℚ := [1/10, 3/20, 1/4, 3/10, 1/5]

/-- `orders` vector of `main` (line 149). -/
def default_orders : List ℤ := [100, 150, 200, 250, 300]

/-- C1: for every order ≥ 0 and demand ≥ 0, the profit function returns
`primary_price * min(order, demand) + secondary_price * max(0, order - demand)
 - cost_per_unit * order` with primary = 49000, secondary = 15000,
cost = 25000. -/
theorem calculate_profit_formula (o d : ℤ) (ho : 0 ≤ o) (hd : 0 ≤ d) :
    calculate_profit o d =
      49000 * ((min o d : ℤ) : ℚ) + 15000 * ((max 0 (o - d) : ℤ) : ℚ) - 25000 * (o : ℚ) := by
  simp [calculate_profit]

/-- Witness for C1 at order 300, demand 100. -/
theorem calculate_profit_formula_witness :
    calculate_profit 300 100 =
      49000 * ((min (300 : ℤ) 100 : ℤ) : ℚ) + 15000 * ((max 0 ((300 : ℤ) - 100) : ℤ) : ℚ) -
        25000 * ((300 : ℤ) : ℚ) :=
  calculate_profit_formula 300 100 (by decide) (by decide)

/-- C9: for every demand ≥ 0, `profit(0, demand) = 0`. -/
theorem calculate_profit_zero_order (d : ℤ) (hd : 0 ≤ d) : calculate_profit 0 d = 0 := by
  have hmin : min (0 : ℤ) d = 0 := min_eq_left hd
  have hmax : max (0 : ℤ) (0 - d) = 0 := max_eq_left (by omega)
  simp [calculate_profit, hmin, hmax]
  exact hd

/-- Witness for C9 at demand 7. -/
theorem calculate_profit_zero_order_witness : calculate_profit 0 7 = 0 :=
  calculate_profit_zero_order 7 (by decide)

/-- C2: the profit matrix has `len(orders)` rows and `len(demands)` columns,
and cell `[i][j]` equals `profit(orders[i], demands[j])`. -/
theorem create_profit_matrix_spec (orders demands : List ℤ) :
    (create_profit_matrix orders demands).length = orders.length ∧
    (∀ r ∈ create_profit_matrix orders demands, r.length = demands.length) ∧
    ∀ i j, i < orders.length → j < demands.length →
      ((create_profit_matrix orders demands).getD i []).getD j 0 =
        calculate_profit (orders.getD i 0) (demands.getD j 0) := by
  refine ⟨by simp [create_profit_matrix], ?_, ?_⟩
  · intro r hr
    simp only [create_profit_matrix, List.mem_map] at hr
    obtain ⟨o, -, rfl⟩ := hr
    simp
  · intro i j hi hj
    simp only [create_profit_matrix]
    have hi' : i < (orders.map (fun o => demands.map (fun d => calculate_profit o d))).length := by
      simpa using hi
    rw [List.getD_eq_getElem _ _ hi', List.getElem_map]
    have hj' : j < (demands.map (fun d => calculate_profit orders[i] d)).length := by
      simpa using hj
    rw [List.getD_eq_getElem _ _ hj', List.getElem_map,
      List.getD_eq_getElem _ _ hi, List.getD_eq_getElem _ _ hj]

/-- Witness for C2 on a 1×1 instance. -/
theorem create_profit_matrix_spec_witness :
    ((create_profit_matrix [300] [100]).getD 0 []).getD 0 0 =
      calculate_profit (([300] : List ℤ).getD 0 0) (([100] : List ℤ).getD 0 0) :=
  (create_profit_matrix_spec [300] [100]).2.2 0 0 (by decide) (by decide)

/-- C4: row reduction returns one value per row, the left-to-right
(index-ascending) fold of addition over the row starting from 0, which is the
arithmetic sum of the row, and a row with zero columns reduces to 0. -/
theorem calculate_expected_profits_spec (expected_values : List (List ℚ)) :
    (calculate_expected_profits expected_values).length = expected_values.length ∧
    (∀ i, i < expected_values.length →
      (calculate_expected_profits expected_values).getD i 0 =
          (expected_values.getD i []).foldl (· + ·) 0 ∧
        (calculate_expected_profits expected_values).getD i 0 =
          (expected_values.getD i []).sum) ∧
    calculate_expected_profits [[]] = [0] := by
  refine ⟨by simp [calculate_expected_profits], ?_, rfl⟩
  intro i hi
  have h1 : (calculate_expected_profits expected_values).getD i 0 =
      (expected_values.getD i []).foldl (· + ·) 0 := by
    simp only [calculate_expected_profits]
    rw [List.getD_eq_getElem _ _ (by simpa using hi), List.getElem_map,
      List.getD_eq_getElem _ _ hi]
  refine ⟨h1, ?_⟩
  rw [h1, List.sum_eq_foldl]

/-- Witness for C4 on the one-row matrix `[[1, 2]]`. -/
theorem calculate_expected_profits_spec_witness :
    (calculate_expected_profits [[1, 2]]).getD 0 0 =
        (([[1, 2]] : List (List ℚ)).getD 0 []).foldl (· + ·) 0 ∧
      (calculate_expected_profits [[1, 2]]).getD 0 0 =
        (([[1, 2]] : List (List ℚ)).getD 0 []).sum :=
  (calculate_expected_profits_spec [[1, 2]]).2.1 0 (by decide)

/-- When every probability read is in bounds, row weighting multiplies the
row pointwise with the probabilities starting at index `j`. -/
theorem weight_row_some (row probs : List ℚ) (j : ℕ) (h : j + row.length ≤ probs.length) :
    weight_row row probs j = some (List.zipWith (· * ·) row (probs.drop j)) := by
  induction row generalizing j with
  | nil => simp [weight_row]
  | cons x xs ih =>
    have hj : j < probs.length := by simp only [List.length_cons] at h; omega
    rw [weight_row, List.getElem?_eq_getElem hj]
    rw [ih (j + 1) (by simp only [List.length_cons] at h ⊢; omega)]
    rw [List.drop_eq_getElem_cons hj]
    rfl

/-- When a non-empty row needs a probability index past the end, row
weighting hits the out-of-bounds read. -/
theorem weight_row_oob (row probs : List ℚ) (j : ℕ) (hrow : row ≠ [])
    (h : probs.length < j + row.length) : weight_row row probs j = none := by
  induction row generalizing j with
  | nil => exact absurd rfl hrow
  | cons x xs ih =>
    rw [weight_row]
    cases hpj : probs[j]? with
    | none => rfl
    | some p =>
      have hj : j < probs.length := by
        by_contra hc
        rw [List.getElem?_eq_none (by omega)] at hpj
        exact Option.noConfusion hpj
      cases xs with
      | nil => simp only [List.length_cons, List.length_nil] at h; omega
      | cons y ys =>
        rw [ih (j + 1) (by simp) (by simp only [List.length_cons] at h ⊢; omega)]
        rfl

/-- On a rectangular batch of rows of width `w` with enough probabilities,
the row loop weights every row pointwise by the probabilities. -/
theorem cev_rows_some (w : ℕ) (probs : List ℚ) (rows : List (List ℚ))
    (hrect : ∀ r ∈ rows, r.length = w) (hp : w ≤ probs.length) :
    cev_rows w probs rows = some (rows.map (fun row => List.zipWith (· * ·) row probs)) := by
  induction rows with
  | nil => rfl
  | cons row rest ih =>
    have hrow : row.length = w := hrect row (by simp)
    rw [cev_rows, if_neg (by omega)]
    rw [weight_row_some row probs 0 (by omega)]
    rw [ih (fun r hr => hrect r (List.mem_cons_of_mem _ hr))]
    simp [hrow]

/-- When the probabilities are shorter than the leading row, the row loop
hits the out-of-bounds probability read on that row. -/
theorem cev_rows_oob (w : ℕ) (probs : List ℚ) (row : List ℚ) (rest : List (List ℚ))
    (hrow : row.length = w) (hp : probs.length < w) :
    cev_rows w probs (row :: rest) = none := by
  rw [cev_rows, if_neg (by omega)]
  rw [weight_row_oob row probs 0 (by intro hnil; rw [hnil] at hrow; simp at hrow; omega)
    (by omega)]

/-- C3 (amended): for every NON-EMPTY rectangular matrix and probabilities of
length equal to the column count, the weighting operation produces a grid of
identical shape with cell `[i][j] = matrix[i][j] * probabilities[j]`. -/
theorem calculate_expected_values_cells (m : List (List ℚ)) (w : ℕ) (probs : List ℚ)
    (hm : m ≠ []) (hrect : ∀ r ∈ m, r.length = w) (hp : probs.length = w) :
    ∃ ev, calculate_expected_values m probs = some ev ∧
      ev.length = m.length ∧ (∀ r ∈ ev, r.length = w) ∧
      ∀ i j, i < m.length → j < w →
        (ev.getD i []).getD j 0 = ((m.getD i []).getD j 0) * probs.getD j 0 := by
  obtain ⟨r0, rest, rfl⟩ := List.exists_cons_of_ne_nil hm
  have h0 : r0.length = w := hrect r0 (by simp)
  have hsome : calculate_expected_values (r0 :: rest) probs =
      some ((r0 :: rest).map (fun row => List.zipWith (· * ·) row probs)) := by
    rw [calculate_expected_values, h0]
    exact cev_rows_some w probs (r0 :: rest) hrect (by omega)
  refine ⟨_, hsome, by simp, ?_, ?_⟩
  · intro r hr
    simp only [List.mem_map] at hr
    obtain ⟨row, hrow, rfl⟩ := hr
    rw [List.length_zipWith, hrect row hrow, hp]
    exact min_self w
  · intro i j hi hj
    have hi' : i < ((r0 :: rest).map (fun row => List.zipWith (· * ·) row probs)).length := by
      simpa using hi
    rw [List.getD_eq_getElem _ _ hi', List.getElem_map]
    have hrowlen : (r0 :: rest)[i].length = w := hrect _ (List.getElem_mem hi)
    have hj' : j < (List.zipWith (· * ·) (r0 :: rest)[i] probs).length := by
      rw [List.length_zipWith, hrowlen, hp]
      simpa using hj
    rw [List.getD_eq_getElem _ _ hj', List.getElem_zipWith,
      List.getD_eq_getElem _ _ hi, List.getD_eq_getElem _ _ (by omega : j < (r0 :: rest)[i].length),
      List.getD_eq_getElem _ _ (by omega : j < probs.length)]

/-- Counterexample to C3 as stated: the empty grid built from no orders is a
rectangular matrix (zero rows, column count 0), and the empty probability
sequence matches that column count, yet the weighting operation performs the
out-of-bounds read of row 0 instead of producing a grid of identical shape. -/
theorem calculate_expected_values_empty_cex :
    calculate_expected_values (create_profit_matrix [] []) [] = none := rfl

/-- Witness for C3 (amended) on the 1×1 matrix `[[1]]` with probabilities `[2]`. -/
theorem calculate_expected_values_cells_witness :
    ∃ ev, calculate_expected_values [[(1 : ℚ)]] [(2 : ℚ)] = some ev ∧
      ev.length = ([[(1 : ℚ)]] : List (List ℚ)).length ∧ (∀ r ∈ ev, r.length = 1) ∧
      ∀ i j, i < ([[(1 : ℚ)]] : List (List ℚ)).length → j < 1 →
        (ev.getD i []).getD j 0 =
          ((([[(1 : ℚ)]] : List (List ℚ)).getD i []).getD j 0) * (([(2 : ℚ)]).getD j 0) :=
  calculate_expected_values_cells [[1]] 1 [2] (by decide) (by decide) (by decide)

/-- C7 (amended): the weighting operation performs no dimension check. For a
non-empty rectangular matrix it produces a result whenever the probability
sequence is at least as long as the column count — in particular also when it
is strictly longer, where the claimed DimensionMismatch failure would apply —
and when the probability sequence is shorter it performs an out-of-bounds
read (modelled `none`), reporting no DimensionMismatch kind. -/
theorem calculate_expected_values_no_dim_check (m : List (List ℚ)) (w : ℕ) (probs : List ℚ)
    (hm : m ≠ []) (hrect : ∀ r ∈ m, r.length = w) :
    (w ≤ probs.length → (calculate_expected_values m probs).isSome = true) ∧
    (probs.length < w → calculate_expected_values m probs = none) := by
  obtain ⟨r0, rest, rfl⟩ := List.exists_cons_of_ne_nil hm
  have h0 : r0.length = w := hrect r0 (by simp)
  constructor
  · intro hp
    rw [calculate_expected_values, h0, cev_rows_some w probs (r0 :: rest) hrect hp]
    rfl
  · intro hp
    rw [calculate_expected_values, h0]
    exact cev_rows_oob w probs r0 rest h0 hp

/-- Counterexample to C7 as stated: probabilities `[2, 3]` are longer than the
column count 1 of the matrix `[[1]]` — the lengths differ — yet the weighting
operation produces the grid `[[2]]` instead of failing. -/
theorem calculate_expected_values_dim_mismatch_cex :
    (([(2 : ℚ), 3]).length ≠ (([[(1 : ℚ)]] : List (List ℚ)).getD 0 []).length) ∧
      calculate_expected_values [[(1 : ℚ)]] [2, 3] = some [[2]] := by
  refine ⟨by decide, ?_⟩
  rw [calculate_expected_values]
  rw [show ([(1 : ℚ)]).length = 1 from rfl]
  rw [cev_rows_some 1 [2, 3] [[(1 : ℚ)]] (by decide) (by decide)]
  norm_num

/-- Witness for C7 (amended) on `[[1]]` with the longer probabilities `[2, 3]`. -/
theorem calculate_expected_values_no_dim_check_witness :
    (calculate_expected_values [[(1 : ℚ)]] [2, 3]).isSome = true :=
  (calculate_expected_values_no_dim_check [[1]] 1 [2, 3] (by decide) (by decide)).1 (by decide)

/-- C10: for a rectangular matrix of width `w`, every index access of the
expected-values computation is in bounds (the embedding returns a result)
iff the matrix has at least one row and the probabilities are at least as
long as row 0; in particular, on the empty grid built by the matrix builder
from an empty orders sequence it reads row 0 out of bounds. -/
theorem calculate_expected_values_bounds (m : List (List ℚ)) (w : ℕ) (probs : List ℚ)
    (hrect : ∀ r ∈ m, r.length = w) :
    ((calculate_expected_values m probs).isSome = true ↔ m ≠ [] ∧ w ≤ probs.length) ∧
    ∀ demands probabilities,
      calculate_expected_values (create_profit_matrix [] demands) probabilities = none := by
  refine ⟨?_, fun demands probabilities => rfl⟩
  cases m with
  | nil => simp [calculate_expected_values]
  | cons r0 rest =>
    have h0 : r0.length = w := hrect r0 (by simp)
    constructor
    · intro hsome
      refine ⟨by simp, ?_⟩
      by_contra hc
      rw [calculate_expected_values, h0, cev_rows_oob w probs r0 rest h0 (by omega)] at hsome
      exact Bool.noConfusion hsome
    · intro h
      rw [calculate_expected_values, h0, cev_rows_some w probs (r0 :: rest) hrect h.2]
      rfl

/-- Witness for C10 on `[[1]]` with probabilities `[5]`. -/
theorem calculate_expected_values_bounds_witness :
    (calculate_expected_values [[(1 : ℚ)]] [(5 : ℚ)]).isSome = true :=
  ((calculate_expected_values_bounds [[1]] 1 [5] (by decide)).1).mpr (by decide)

/-- When every remaining profit is at most the incumbent, the optimizer loop
keeps the incumbent: later equal values never replace it. -/
theorem optimize_go_all_le (orders : List ℤ) (profits : List ℚ) (bo : ℤ) (bp : ℚ)
    (hlen : orders.length = profits.length)
    (hall : ∀ k, (hk : k < profits.length) → profits.get ⟨k, hk⟩ ≤ bp) :
    optimize_go orders profits bo bp = some (bo, bp) := by
  induction profits generalizing orders with
  | nil => cases orders <;> rfl
  | cons p ps ih =>
    cases orders with
    | nil => simp at hlen
    | cons o os =>
      have h0 : p ≤ bp := hall 0 (Nat.succ_pos _)
      rw [optimize_go, if_neg (not_lt.mpr h0)]
      exact ih os (by simpa using hlen) (fun k hk => hall (k + 1) (Nat.succ_lt_succ hk))

/-- The optimizer loop returns the entry at the first index attaining the
maximum, provided the incumbent profit is strictly below that maximum. -/
theorem optimize_go_first_max (orders : List ℤ) (profits : List ℚ) (bo : ℤ) (bp : ℚ)
    (hlen : orders.length = profits.length) (i : ℕ) (hi : i < profits.length)
    (hmax : ∀ k, (hk : k < profits.length) → profits.get ⟨k, hk⟩ ≤ profits.get ⟨i, hi⟩)
    (hfirst : ∀ k, (hk : k < i) → profits.get ⟨k, Nat.lt_trans hk hi⟩ < profits.get ⟨i, hi⟩)
    (hbp : bp < profits.get ⟨i, hi⟩) :
    optimize_go orders profits bo bp =
      some (orders.get ⟨i, by omega⟩, profits.get ⟨i, hi⟩) := by
  induction profits generalizing orders bo bp i with
  | nil => exact absurd hi (by simp)
  | cons p ps ih =>
    cases orders with
    | nil => simp at hlen
    | cons o os =>
      cases i with
      | zero =>
        have hbp0 : bp < p := hbp
        rw [optimize_go, if_pos hbp0]
        exact optimize_go_all_le os ps o p (by simpa using hlen)
          (fun k hk => hmax (k + 1) (Nat.succ_lt_succ hk))
      | succ j =>
        have hj : j < ps.length := Nat.lt_of_succ_lt_succ hi
        by_cases hb : bp < p
        · rw [optimize_go, if_pos hb]
          exact ih os o p (by simpa using hlen) j hj
            (fun k hk => hmax (k + 1) (Nat.succ_lt_succ hk))
            (fun k hk => hfirst (k + 1) (Nat.succ_lt_succ hk))
            (hfirst 0 (Nat.succ_pos j))
        · rw [optimize_go, if_neg hb]
          exact ih os bo bp (by simpa using hlen) j hj
            (fun k hk => hmax (k + 1) (Nat.succ_lt_succ hk))
            (fun k hk => hfirst (k + 1) (Nat.succ_lt_succ hk))
            hbp

/-- C5 (amended): for every equal-length pair of orders and expected-profits
sequences whose maximum expected profit is strictly greater than the initial
incumbent `numeric_limits<double>::lowest()`, the optimizer returns the order
at the first index attaining the maximum: a later element equal to the
current best never replaces the incumbent. -/
theorem main_optimize_first_max (orders : List ℤ) (profits : List ℚ)
    (hlen : orders.length = profits.length) (i : ℕ) (hi : i < profits.length)
    (hmax : ∀ k, (hk : k < profits.length) → profits.get ⟨k, hk⟩ ≤ profits.get ⟨i, hi⟩)
    (hfirst : ∀ k, (hk : k < i) → profits.get ⟨k, Nat.lt_trans hk hi⟩ < profits.get ⟨i, hi⟩)
    (hlow : lowestDouble < profits.get ⟨i, hi⟩) :
    main_optimize orders profits =
      some (orders.get ⟨i, by omega⟩, profits.get ⟨i, hi⟩) :=
  optimize_go_first_max orders profits 0 lowestDouble hlen i hi hmax hfirst hlow

/-- Counterexample to C5 as stated: on the non-empty, equal-length pair
`orders = [100]`, `expected_profits = [lowest()]`, the maximum is attained at
index 0 with order 100, yet the loop never fires its strict comparison and
returns the initial `optimal_order = 0`, not 100. -/
theorem main_optimize_lowest_cex :
    main_optimize [100] [lowestDouble] = some (0, lowestDouble) ∧ (0 : ℤ) ≠ 100 := by
  refine ⟨?_, by decide⟩
  rw [main_optimize, optimize_go, if_neg (lt_irrefl lowestDouble)]
  rfl

/-- Witness for C5 (amended): the tie-break instance of the claim — expected
profits `[10, 20, 20, 5]` with orders `[100, 150, 200, 250]` yield
`(150, 20)`, the first maximal index, not the last. -/
theorem main_optimize_first_max_witness :
    main_optimize [100, 150, 200, 250] [10, 20, 20, 5] = some (150, 20) :=
  main_optimize_first_max [100, 150, 200, 250] [10, 20, 20, 5] (by decide) 1 (by decide)
    (by decide) (by decide) (by decide)

/-- The optimizer loop fails (out-of-bounds read of `orders[i]`) exactly when
`orders` is shorter than `expected_profits`. -/
theorem optimize_go_none_iff (orders : List ℤ) (profits : List ℚ) (bo : ℤ) (bp : ℚ) :
    optimize_go orders profits bo bp = none ↔ orders.length < profits.length := by
  induction profits generalizing orders bo bp with
  | nil => cases orders <;> simp [optimize_go]
  | cons p ps ih =>
    cases orders with
    | nil => simp [optimize_go]
    | cons o os =>
      rw [optimize_go]
      by_cases hb : bp < p
      · rw [if_pos hb, ih]
        simp
      · rw [if_neg hb, ih]
        simp

/-- C8 (amended): the optimizer performs no validation. On empty orders and
expected-profits sequences it does not fail with an EmptyInput kind but
returns the initial pair `(0, lowest())`; it fails — by the out-of-bounds
read of `orders[i]`, not with a DimensionMismatch kind — exactly when
`orders` is shorter than `expected_profits`, and with longer `orders` the
extra entries are ignored and a result is produced. -/
theorem main_optimize_no_validation :
    main_optimize [] [] = some (0, lowestDouble) ∧
    ∀ orders profits,
      (main_optimize orders profits = none ↔ orders.length < profits.length) :=
  ⟨rfl, fun orders profits => optimize_go_none_iff orders profits 0 lowestDouble⟩

/-- Counterexample to C8 as stated: called with an empty orders sequence and
an empty expected-profits sequence the optimizer does not fail at all — it
returns `(0, lowest())`. -/
theorem main_optimize_empty_cex : main_optimize [] [] = some (0, lowestDouble) := rfl

/-- C6: on the default inputs, profit-matrix cell (order 100, demand 100) is
2,400,000 and cell (order 300, demand 100) is 400,000; these exact values
propagate through weighting (240,000 and 40,000 after multiplication by
probability 0.1), row reduction, and optimization, which selects order 250
with expected profit 4,555,000. -/
theorem pipeline_defaults :
    ((create_profit_matrix default_orders default_demands).getD 0 []).getD 0 0 = 2400000 ∧
    ((create_profit_matrix default_orders default_demands).getD 4 []).getD 0 0 = 400000 ∧
    ∃ ev, calculate_expected_values (create_profit_matrix default_orders default_demands)
        default_probabilities = some ev ∧
      (ev.getD 0 []).getD 0 0 = 240000 ∧
      (ev.getD 4 []).getD 0 0 = 40000 ∧
      calculate_expected_profits ev = [2400000, 3430000, 4205000, 4555000, 4395000] ∧
      main_optimize default_orders (calculate_expected_profits ev) = some (250, 4555000) := by
  have hM : create_profit_matrix default_orders default_demands =
      [[2400000, 2400000, 2400000, 2400000, 2400000],
       [1900000, 3600000, 3600000, 3600000, 3600000],
       [1400000, 3100000, 4800000, 4800000, 4800000],
       [900000, 2600000, 4300000, 6000000, 6000000],
       [400000, 2100000, 3800000, 5500000, 7200000]] := by
    norm_num [create_profit_matrix, calculate_profit, default_orders, default_demands,
      min_def, max_def]
  have hrect : ∀ r ∈ ([[(2400000 : ℚ), 2400000, 2400000, 2400000, 2400000],
      [1900000, 3600000, 3600000, 3600000, 3600000],
      [1400000, 3100000, 4800000, 4800000, 4800000],
      [900000, 2600000, 4300000, 6000000, 6000000],
      [400000, 2100000, 3800000, 5500000, 7200000]] : List (List ℚ)), r.length = 5 := by
    intro r hr
    simp only [List.mem_cons, List.not_mem_nil, or_false] at hr
    rcases hr with rfl | rfl | rfl | rfl | rfl <;> rfl
  have hEV : calculate_expected_values (create_profit_matrix default_orders default_demands)
      default_probabilities =
      some [[240000, 360000, 600000, 720000, 480000],
        [190000, 540000, 900000, 1080000, 720000],
        [140000, 465000, 1200000, 1440000, 960000],
        [90000, 390000, 1075000, 1800000, 1200000],
        [40000, 315000, 950000, 1650000, 1440000]] := by
    rw [hM, calculate_expected_values]
    have h5 : ([(2400000 : ℚ), 2400000, 2400000, 2400000, 2400000]).length = 5 := rfl
    rw [h5, cev_rows_some 5 default_probabilities _ hrect (by norm_num [default_probabilities])]
    norm_num [default_probabilities]
  have hEP : calculate_expected_profits
      [[(240000 : ℚ), 360000, 600000, 720000, 480000],
        [190000, 540000, 900000, 1080000, 720000],
        [140000, 465000, 1200000, 1440000, 960000],
        [90000, 390000, 1075000, 1800000, 1200000],
        [40000, 315000, 950000, 1650000, 1440000]] =
      [2400000, 3430000, 4205000, 4555000, 4395000] := by
    norm_num [calculate_expected_profits]
  have hOpt : main_optimize default_orders
      [2400000, 3430000, 4205000, 4555000, 4395000] = some (250, 4555000) := by
    rw [main_optimize, default_orders,
      optimize_go, if_pos (by norm_num [lowestDouble] : lowestDouble < (2400000 : ℚ)),
      optimize_go, if_pos (by norm_num : (2400000 : ℚ) < 3430000),
      optimize_go, if_pos (by norm_num : (3430000 : ℚ) < 4205000),
      optimize_go, if_pos (by norm_num : (4205000 : ℚ) < 4555000),
      optimize_go, if_neg (by norm_num : ¬(4555000 : ℚ) < 4395000)]
    rfl
  refine ⟨by rw [hM]; rfl, by rw [hM]; rfl, _, hEV, rfl, rfl, hEP, ?_⟩
  rw [hEP]
  exact hOpt
